import Mathlib

/-!
Verification of the MuJoCo forward-dynamics driver (`src/engine/engine_forward.c`).

Shallow embedding conventions:
* A scalar (`mjtNum`, a C double) is modeled as `Option ℚ`: `some q` is a finite
  real value (exact arithmetic), `none` stands for a non-finite value (NaN and
  ±infinity collapsed).  Arithmetic propagates `none`; comparisons involving
  `none` are `false`, mirroring IEEE NaN comparison semantics, which is what the
  driver's clamping code relies on.
* A C array is modeled as a total function `Nat → MjNum`; an operation on an
  array of extent `n` reads/writes indices `< n` and leaves the rest unchanged.
* The immutable model `mjModel` carries finite (rational) parameters, as
  produced by the model compiler.
* External collaborators that live outside `engine_forward.c` (kinematics,
  solvers, mass-matrix factorization, `mj_warning`, `mj_constraintUpdate`,
  `mj_integratePos`, muscle models, user callbacks, ...) are modeled from the
  spec as a record `Collab` of function parameters whose result types restrict
  each collaborator to the outputs its stage contract allows it to write.
  Collaborators that write only caches not tracked by this embedding
  (`mj_kinematics`, `mj_comPos`, `mj_camlight`, `mj_collision`, `mj_comVel`,
  sensor internals, timers) appear as comments at their call sites.
-/

namespace MjForward

/-- A `mjtNum` value: `some q` is a finite value, `none` a non-finite one. -/
abbrev MjNum := Option ℚ

/-- An array of `mjtNum` (C pointer), indexed from 0. -/
abbrev MjVec := Nat → MjNum

/-- A dense matrix of `mjtNum` (row index first). -/
abbrev MjMat := Nat → Nat → MjNum

/-- Addition; any non-finite operand yields a non-finite result. -/
def mjAdd : MjNum → MjNum → MjNum
  | some a, some b => some (a + b)
  | _, _ => none

/-- Subtraction with non-finite propagation. -/
def mjSub : MjNum → MjNum → MjNum
  | some a, some b => some (a - b)
  | _, _ => none

/-- Multiplication with non-finite propagation. -/
def mjMul : MjNum → MjNum → MjNum
  | some a, some b => some (a * b)
  | _, _ => none

/-- Division; division by zero and non-finite operands yield non-finite. -/
def mjDiv : MjNum → MjNum → MjNum
  | some a, some b => if b = 0 then none else some (a / b)
  | _, _ => none

/-- Strict `<` as in C on doubles: false whenever an operand is non-finite. -/
def mjLtB : MjNum → MjNum → Bool
  | some a, some b => decide (a < b)
  | _, _ => false

/-- Strict `>` as in C on doubles: false whenever an operand is non-finite. -/
def mjGtB : MjNum → MjNum → Bool
  | some a, some b => decide (b < a)
  | _, _ => false

/-- Modelled from the spec: `mju_isBad` (engine_util_misc.c, not under src/)
scans for non-finite values; here a value is bad iff it is non-finite. -/
def mju_isBad (x : MjNum) : Bool := x.isNone

/-- Contents of a fresh stack allocation (`mj_stackAlloc`): unspecified in C,
fixed to zeros in the model; the driver never reads them before writing. -/
def mjStackInit : MjVec := fun _ => some 0

/-- `mju_zero(dst, n)`: write zeros to the first `n` entries. -/
def mju_zero (dst : MjVec) (n : Nat) : MjVec :=
  fun i => if i < n then some 0 else dst i

/-- `mju_copy(dst, src, n)`: copy the first `n` entries of `src` into `dst`. -/
def mju_copy (dst src : MjVec) (n : Nat) : MjVec :=
  fun i => if i < n then src i else dst i

/-- `mju_add(dst, a, b, n)`: entrywise sum into `dst`. -/
def mju_add (dst a b : MjVec) (n : Nat) : MjVec :=
  fun i => if i < n then mjAdd (a i) (b i) else dst i

/-- `mju_sub(dst, a, b, n)`: entrywise difference into `dst`. -/
def mju_sub (dst a b : MjVec) (n : Nat) : MjVec :=
  fun i => if i < n then mjSub (a i) (b i) else dst i

/-- `mju_addTo(dst, src, n)`: `dst[i] += src[i]`. -/
def mju_addTo (dst src : MjVec) (n : Nat) : MjVec :=
  fun i => if i < n then mjAdd (dst i) (src i) else dst i

/-- `mju_subFrom(dst, src, n)`: `dst[i] -= src[i]`. -/
def mju_subFrom (dst src : MjVec) (n : Nat) : MjVec :=
  fun i => if i < n then mjSub (dst i) (src i) else dst i

/-- `mju_addToScl(dst + off, src, scl, n)`: `dst[off+k] += src[k]*scl` for `k < n`.
The offset form covers the pointer arithmetic used by the Runge-Kutta stages. -/
def mju_addToSclSeg (dst : MjVec) (off : Nat) (src : MjVec) (scl : MjNum) (n : Nat) : MjVec :=
  fun i => if off ≤ i ∧ i < off + n then mjAdd (dst i) (mjMul (src (i - off)) scl) else dst i

/-- `mju_addToScl(dst, src, scl, n)`: `dst[i] += src[i]*scl`. -/
def mju_addToScl (dst src : MjVec) (scl : MjNum) (n : Nat) : MjVec :=
  mju_addToSclSeg dst 0 src scl n

/-- `mju_dot(a, b, n)`: left-to-right accumulated inner product. -/
def mju_dot (a b : MjVec) (n : Nat) : MjNum :=
  (List.range n).foldl (fun s i => mjAdd s (mjMul (a i) (b i))) (some 0)

/-- `mju_mulMatVec(dst, mat, v, nr, nc)`: dense matrix-vector product.
The sparse variants used by the driver compute the same entries. -/
def mju_mulMatVec (dst : MjVec) (mat : MjMat) (v : MjVec) (nr nc : Nat) : MjVec :=
  fun i => if i < nr then mju_dot (mat i) v nc else dst i

/-- `mju_mulMatTVec(dst, mat, v, nr, nc)`: transposed matrix-vector product. -/
def mju_mulMatTVec (dst : MjVec) (mat : MjMat) (v : MjVec) (nr nc : Nat) : MjVec :=
  fun i => if i < nc then mju_dot (fun r => mat r i) v nr else dst i

/-- Integrator choice `mjtIntegrator`. -/
inductive MjtIntegrator
  | EULER
  | RK4
  | IMPLICIT
deriving DecidableEq

/-- Constraint solver choice `mjtSolver`. -/
inductive MjtSolver
  | PGS
  | CG
  | NEWTON
deriving DecidableEq

/-- The warning kinds raised by the driver (`mjtWarning`, relevant subset). -/
inductive MjtWarning
  | BADQPOS
  | BADQVEL
  | BADQACC
  | BADCTRL
deriving DecidableEq

/-- Actuator gain type `mjtGain`; `USER` stands for the switch default. -/
inductive MjtGain
  | FIXED
  | MUSCLE
  | USER
deriving DecidableEq

/-- Actuator bias type `mjtBias`; `USER` stands for the switch default. -/
inductive MjtBias
  | NONE
  | AFFINE
  | MUSCLE
  | USER
deriving DecidableEq

/-- Actuator activation dynamics type `mjtDyn`. -/
inductive MjtDyn
  | NONE
  | INTEGRATOR
  | FILTER
  | MUSCLE
  | USER
deriving DecidableEq

/-- Pipeline stage labels `mjtStage` (numeric values as in mjdata.h). -/
def mjSTAGE_NONE : Nat := 0

def mjSTAGE_POS : Nat := 1

def mjSTAGE_VEL : Nat := 2

def mjSTAGE_ACC : Nat := 3

/-- Number of gain parameters per actuator (`mjNGAIN`). -/
def mjNGAIN : Nat := 10

/-- Number of bias parameters per actuator (`mjNBIAS`). -/
def mjNBIAS : Nat := 10

/-- Number of dynamics parameters per actuator (`mjNDYN`). -/
def mjNDYN : Nat := 10

/-- `mjMINVAL`, the minimum positive value treated as nonzero (1e-15). -/
def mjMINVAL : ℚ := 1 / 1000000000000000

/-- One warning slot of `d->warning[]`: occurrence count and last index info. -/
structure MjStat where
  number : Nat
  lastinfo : Nat
deriving DecidableEq

/-- The fields of `mjModel.opt` consumed by the driver.  Disable/enable bit
flags are modeled as individual booleans. -/
structure MjOption where
  timestep : ℚ
  integrator : MjtIntegrator
  solver : MjtSolver
  iterations : Nat
  noslip_iterations : Nat
  disableActuation : Bool
  disableClampCtrl : Bool
  disableWarmstart : Bool
  enableEnergy : Bool
  enableFwdInv : Bool

/-- The fields of the immutable `mjModel` read by the driver. -/
structure MjModel where
  nq : Nat
  nv : Nat
  nu : Nat
  na : Nat
  nM : Nat
  nD : Nat
  ntendon : Nat
  opt : MjOption
  dof_damping : Nat → ℚ
  dof_Madr : Nat → Nat
  actuator_ctrllimited : Nat → Bool
  actuator_ctrlrange : Nat → ℚ
  actuator_forcelimited : Nat → Bool
  actuator_forcerange : Nat → ℚ
  actuator_actlimited : Nat → Bool
  actuator_actrange : Nat → ℚ
  actuator_gaintype : Nat → MjtGain
  actuator_biastype : Nat → MjtBias
  actuator_dyntype : Nat → MjtDyn
  actuator_gainprm : Nat → ℚ
  actuator_biasprm : Nat → ℚ
  actuator_dynprm : Nat → ℚ
  actuator_lengthrange : Nat → ℚ
  actuator_acc0 : Nat → ℚ

/-- The fields of the mutable `mjData` tracked by this embedding. -/
structure MjData where
  time : MjNum
  qpos : MjVec
  qvel : MjVec
  act : MjVec
  ctrl : MjVec
  qfrc_applied : MjVec
  qfrc_passive : MjVec
  qfrc_bias : MjVec
  qfrc_actuator : MjVec
  qfrc_smooth : MjVec
  qfrc_constraint : MjVec
  qacc : MjVec
  qacc_smooth : MjVec
  qacc_warmstart : MjVec
  actuator_force : MjVec
  act_dot : MjVec
  actuator_length : MjVec
  actuator_velocity : MjVec
  ten_velocity : MjVec
  actuator_moment : MjMat
  ten_J : MjMat
  efc_AR : MjMat
  qM : MjVec
  qLD : MjVec
  qLDiagInv : MjVec
  qLDiagSqrtInv : MjVec
  qDeriv : MjVec
  qLU : MjVec
  nefc : Nat
  efc_aref : MjVec
  efc_b : MjVec
  efc_force : MjVec
  sensordata : MjVec
  energy : MjNum × MjNum
  fwdinv : MjNum × MjNum
  solver_iter : Nat
  warning : MjtWarning → MjStat

/-- What an iterative constraint solver run writes back into `mjData`. -/
structure SolverOut where
  qacc : MjVec
  efc_force : MjVec
  qfrc_constraint : MjVec
  iters : Nat

/-- Modelled from the spec: the external collaborators of the driver (the
operations listed in spec section 6 whose code is not in
`engine_forward.c`), each restricted to the outputs its contract names. -/
structure Collab where
  tendonJ : MjModel → MjData → MjMat
  transmission : MjModel → MjData → MjVec × MjMat
  crb : MjModel → MjData → MjVec
  factorM : MjModel → MjData → MjVec × MjVec × MjVec
  makeConstraint : MjModel → MjData → Nat
  projectConstraint : MjModel → MjData → MjMat
  passive : MjModel → MjData → MjVec
  referenceConstraint : MjModel → MjData → MjVec
  rne : MjModel → MjData → MjVec
  xfrcContrib : MjModel → MjData → MjVec
  solveM : MjModel → MjData → MjVec → MjVec
  mulJacVec : MjModel → MjData → MjVec → MjVec
  mulM : MjModel → MjData → MjVec → MjVec
  constraintUpdate : MjModel → MjData → MjVec → MjNum
  solPGS : MjModel → MjData → Nat → SolverOut
  solCG : MjModel → MjData → Nat → SolverOut
  solNewton : MjModel → MjData → Nat → SolverOut
  solNoSlip : MjModel → MjData → Nat → SolverOut
  integratePos : MjModel → MjVec → MjVec → ℚ → MjVec
  sensorPos : MjModel → MjData → MjVec
  sensorVel : MjModel → MjData → MjVec
  sensorAcc : MjModel → MjData → MjVec
  energyPos : MjModel → MjData → MjNum
  energyVel : MjModel → MjData → MjNum
  compareFwdInv : MjModel → MjData → MjNum × MjNum
  resetData : MjModel → MjData → MjData
  mjd_smooth_vel : MjModel → MjData → MjVec
  setMSparse : MjModel → MjData → MjVec
  factorLUSparse : MjModel → MjData → MjVec → MjVec
  solveLUSparse : MjModel → MjData → MjVec → MjVec → MjVec
  muscleGain : MjNum → MjNum → (ℚ × ℚ) → ℚ → (Nat → ℚ) → MjNum
  muscleBias : MjNum → (ℚ × ℚ) → ℚ → (Nat → ℚ) → MjNum
  muscleDynamics : MjNum → MjNum → (Nat → ℚ) → MjNum
  control : Option (MjModel → MjData → MjVec × MjVec)
  act_gain : Option (MjModel → MjData → Nat → MjNum)
  act_bias : Option (MjModel → MjData → Nat → MjNum)
  act_dyn : Option (MjModel → MjData → Nat → MjNum)

/-- Modelled from the spec: `mj_warning(d, w, info)` increments the warning
counter and records the offending index (spec section 7). -/
def mj_warning (d : MjData) (w : MjtWarning) (info : Nat) : MjData :=
  { d with warning := Function.update d.warning w ⟨(d.warning w).number + 1, info⟩ }

/-- `mj_fwdPosition`: the position stage.  `mj_kinematics`, `mj_comPos`,
`mj_camlight` and `mj_collision` write only caches not tracked here. -/
def mj_fwdPosition (m : MjModel) (c : Collab) (d : MjData) : MjData :=
  -- mj_kinematics, mj_comPos, mj_camlight: untracked kinematic caches
  let d := { d with ten_J := c.tendonJ m d }
  let d :=
    let tr := c.transmission m d
    { d with actuator_length := mju_copy d.actuator_length tr.1 m.nu,
             actuator_moment := tr.2 }
  let d := { d with qM := mju_copy d.qM (c.crb m d) m.nM }
  let d :=
    let f := c.factorM m d
    { d with qLD := mju_copy d.qLD f.1 m.nM,
             qLDiagInv := mju_copy d.qLDiagInv f.2.1 m.nv,
             qLDiagSqrtInv := mju_copy d.qLDiagSqrtInv f.2.2 m.nv }
  -- mj_collision: untracked contact list
  let d := { d with nefc := c.makeConstraint m d }
  { d with efc_AR := c.projectConstraint m d }

/-- `mj_fwdVelocity`: the velocity stage.  The sparse and dense tendon
Jacobian products compute the same entries; `mj_comVel` writes only
untracked caches. -/
def mj_fwdVelocity (m : MjModel) (c : Collab) (d : MjData) : MjData :=
  let d := { d with ten_velocity := mju_mulMatVec d.ten_velocity d.ten_J d.qvel m.ntendon m.nv }
  let d := { d with actuator_velocity := mju_mulMatVec d.actuator_velocity d.actuator_moment d.qvel m.nu m.nv }
  -- mj_comVel: untracked
  let d := { d with qfrc_passive := mju_copy d.qfrc_passive (c.passive m d) m.nv }
  let d := { d with efc_aref := mju_copy d.efc_aref (c.referenceConstraint m d) d.nefc }
  -- qfrc_bias via abbreviated RNE (zero acceleration)
  { d with qfrc_bias := mju_copy d.qfrc_bias (c.rne m d) m.nv }

/-- The control scan at the top of `mj_fwdActuation`: on the first non-finite
entry, raise `BADCTRL` and zero all of `ctrl`. -/
def checkCtrl (m : MjModel) (d : MjData) : MjData :=
  match (List.range m.nu).find? (fun i => mju_isBad (d.ctrl i)) with
  | some i => { mj_warning d .BADCTRL i with ctrl := mju_zero d.ctrl m.nu }
  | none => d

/-- Body of the gain/bias force loop of `mj_fwdActuation` for actuator `i`:
clamp `ctrl[i]` in place, then `force[i] = gain * (ctrl or act) + bias`. -/
def actuationForceStep (m : MjModel) (c : Collab) (d : MjData) (i : Nat) : MjData :=
  let d :=
    if m.actuator_ctrllimited i = true ∧ m.opt.disableClampCtrl = false then
      if mjLtB (d.ctrl i) (some (m.actuator_ctrlrange (2 * i))) = true then
        { d with ctrl := Function.update d.ctrl i (some (m.actuator_ctrlrange (2 * i))) }
      else if mjGtB (d.ctrl i) (some (m.actuator_ctrlrange (2 * i + 1))) = true then
        { d with ctrl := Function.update d.ctrl i (some (m.actuator_ctrlrange (2 * i + 1))) }
      else d
    else d
  let gain : MjNum :=
    match m.actuator_gaintype i with
    | .FIXED => some (m.actuator_gainprm (mjNGAIN * i))
    | .MUSCLE =>
        c.muscleGain (d.actuator_length i) (d.actuator_velocity i)
          (m.actuator_lengthrange (2 * i), m.actuator_lengthrange (2 * i + 1))
          (m.actuator_acc0 i) (fun k => m.actuator_gainprm (mjNGAIN * i + k))
    | .USER =>
        match c.act_gain with
        | some f => f m d i
        | none => some 1
  let drive : MjNum :=
    if m.actuator_dyntype i = .NONE then d.ctrl i else d.act (i - (m.nu - m.na))
  let d := { d with actuator_force := Function.update d.actuator_force i (mjMul gain drive) }
  let bias : MjNum :=
    match m.actuator_biastype i with
    | .NONE => some 0
    | .AFFINE =>
        mjAdd (mjAdd (some (m.actuator_biasprm (mjNBIAS * i)))
            (mjMul (some (m.actuator_biasprm (mjNBIAS * i + 1))) (d.actuator_length i)))
          (mjMul (some (m.actuator_biasprm (mjNBIAS * i + 2))) (d.actuator_velocity i))
    | .MUSCLE =>
        c.muscleBias (d.actuator_length i)
          (m.actuator_lengthrange (2 * i), m.actuator_lengthrange (2 * i + 1))
          (m.actuator_acc0 i) (fun k => m.actuator_biasprm (mjNBIAS * i + k))
    | .USER =>
        match c.act_bias with
        | some f => f m d i
        | none => some 0
  { d with actuator_force := Function.update d.actuator_force i (mjAdd (d.actuator_force i) bias) }

/-- The `actuator_force` clamp loop of `mj_fwdActuation`. -/
def clampForces (m : MjModel) (force : MjVec) : MjVec :=
  (List.range m.nu).foldl
    (fun f i =>
      if m.actuator_forcelimited i = true then
        if mjLtB (f i) (some (m.actuator_forcerange (2 * i))) = true then
          Function.update f i (some (m.actuator_forcerange (2 * i)))
        else if mjGtB (f i) (some (m.actuator_forcerange (2 * i + 1))) = true then
          Function.update f i (some (m.actuator_forcerange (2 * i + 1)))
        else f
      else f)
    force

/-- Body of the `act_dot` loop of `mj_fwdActuation` for stateful actuator
slot `j` (actuator index `i = j + nu - na`). -/
def actDotStep (m : MjModel) (c : Collab) (d : MjData) (j : Nat) : MjData :=
  let i := j + (m.nu - m.na)
  let ad : MjNum :=
    match m.actuator_dyntype i with
    | .INTEGRATOR => d.ctrl i
    | .FILTER =>
        let tau := max mjMINVAL (m.actuator_dynprm (mjNDYN * i))
        mjDiv (mjSub (d.ctrl i) (d.act j)) (some tau)
    | .MUSCLE => c.muscleDynamics (d.ctrl i) (d.act j) (fun k => m.actuator_dynprm (mjNDYN * i + k))
    | .NONE =>
        match c.act_dyn with
        | some f => f m d i
        | none => some 0
    | .USER =>
        match c.act_dyn with
        | some f => f m d i
        | none => some 0
  { d with act_dot := Function.update d.act_dot j ad }

/-- `mj_fwdActuation`: the actuation stage. -/
def mj_fwdActuation (m : MjModel) (c : Collab) (d : MjData) : MjData :=
  let nv := m.nv
  let nu := m.nu
  let na := m.na
  -- clear results
  let d := { d with qfrc_actuator := mju_zero d.qfrc_actuator nv }
  let d := if nu ≠ 0 then { d with actuator_force := mju_zero d.actuator_force nu } else d
  -- check controls, set to 0 if any are bad
  let d := checkCtrl m d
  -- disabled or no actuation: return
  if nu = 0 ∨ m.opt.disableActuation = true then d
  else
    let d := (List.range nu).foldl (actuationForceStep m c) d
    let d := { d with actuator_force := clampForces m d.actuator_force }
    let d := { d with qfrc_actuator := mju_mulMatTVec d.qfrc_actuator d.actuator_moment d.actuator_force nu nv }
    (List.range na).foldl (actDotStep m c) d

/-- `mj_fwdAcceleration`: sum non-constraint forces, solve for `qacc_smooth`.
`mj_xfrcAccumulate` adds the external Cartesian wrench contribution, which
does not depend on `qfrc_smooth` itself. -/
def mj_fwdAcceleration (m : MjModel) (c : Collab) (d : MjData) : MjData :=
  let nv := m.nv
  let qs := mju_sub d.qfrc_smooth d.qfrc_passive d.qfrc_bias nv
  let qs := mju_addTo qs d.qfrc_applied nv
  let qs := mju_addTo qs d.qfrc_actuator nv
  let qs := mju_addTo qs (c.xfrcContrib m d) nv
  let d := { d with qfrc_smooth := qs }
  { d with qacc_smooth := mju_copy d.qacc_smooth (c.solveM m d d.qfrc_smooth) nv }

/-- The static `warmstart` routine of `engine_forward.c`.
`mj_constraintUpdate` is modelled from the spec as returning the constraint
cost of the given residual (called with no gradient request). -/
def warmstart (m : MjModel) (c : Collab) (d : MjData) : MjData :=
  let nv := m.nv
  let nefc := d.nefc
  if m.opt.disableWarmstart = false then
    -- start with qacc = qacc_warmstart
    let d := { d with qacc := mju_copy d.qacc d.qacc_warmstart nv }
    -- jar = J*qacc_warmstart - aref
    let jar := mju_subFrom (mju_copy mjStackInit (c.mulJacVec m d d.qacc_warmstart) nefc) d.efc_aref nefc
    let cost_warmstart := c.constraintUpdate m d jar
    if m.opt.solver = .PGS then
      let PGS_warmstart := mju_dot d.efc_force d.efc_b nefc
      -- sparse and dense AR products compute the same entries
      let ARf := mju_mulMatVec mjStackInit d.efc_AR d.efc_force nefc nefc
      let PGS_warmstart := mjAdd PGS_warmstart (mjMul (some (1 / 2)) (mju_dot d.efc_force ARf nefc))
      if mjGtB PGS_warmstart (some 0) = true then
        { d with efc_force := mju_zero d.efc_force nefc,
                 qfrc_constraint := mju_zero d.qfrc_constraint nv }
      else d
    else
      -- add Gauss term to cost(qacc_warmstart)
      let Ma := c.mulM m d d.qacc_warmstart
      let cost_warmstart :=
        (List.range nv).foldl
          (fun s i =>
            mjAdd s (mjMul (mjMul (some (1 / 2)) (mjSub (Ma i) (d.qfrc_smooth i)))
              (mjSub (d.qacc_warmstart i) (d.qacc_smooth i))))
          cost_warmstart
      let cost_smooth := c.constraintUpdate m d d.efc_b
      if mjGtB cost_warmstart cost_smooth = true then
        { d with qacc := mju_copy d.qacc d.qacc_smooth nv }
      else d
  else
    -- coldstart with qacc = qacc_smooth, efc_force = 0
    { d with qacc := mju_copy d.qacc d.qacc_smooth nv,
             efc_force := mju_zero d.efc_force nefc }

/-- Write an iterative solver's outputs back into `mjData`. -/
def applySol (m : MjModel) (d : MjData) (o : SolverOut) : MjData :=
  { d with qacc := mju_copy d.qacc o.qacc m.nv,
           efc_force := mju_copy d.efc_force o.efc_force d.nefc,
           qfrc_constraint := mju_copy d.qfrc_constraint o.qfrc_constraint m.nv,
           solver_iter := d.solver_iter + o.iters }

/-- `mj_fwdConstraint`: the constraint stage.  The unknown-solver default of
the C switch is unreachable: `MjtSolver` has exactly the three values. -/
def mj_fwdConstraint (m : MjModel) (c : Collab) (d : MjData) : MjData :=
  let nv := m.nv
  let nefc := d.nefc
  -- no constraints: copy unconstrained acc, clear forces, return
  if nefc = 0 then
    { d with qacc := mju_copy d.qacc d.qacc_smooth nv,
             qacc_warmstart := mju_copy d.qacc_warmstart d.qacc_smooth nv,
             qfrc_constraint := mju_zero d.qfrc_constraint nv,
             solver_iter := 0 }
  else
    -- efc_b = J*qacc_smooth - aref
    let d := { d with efc_b := mju_subFrom (mju_copy d.efc_b (c.mulJacVec m d d.qacc_smooth) nefc) d.efc_aref nefc }
    let d := warmstart m c d
    let d := { d with solver_iter := 0 }
    let d :=
      match m.opt.solver with
      | .PGS => applySol m d (c.solPGS m d m.opt.iterations)
      | .CG => applySol m d (c.solCG m d m.opt.iterations)
      | .NEWTON => applySol m d (c.solNewton m d m.opt.iterations)
    -- save result for next step warmstart
    let d := { d with qacc_warmstart := mju_copy d.qacc_warmstart d.qacc nv }
    if 0 < m.opt.noslip_iterations then applySol m d (c.solNoSlip m d m.opt.noslip_iterations) else d

/-- `if (d->act[i] < min) ... else if (d->act[i] > max) ...`: the activation
clamp of `mj_Euler` and `mj_RungeKutta`.  A non-finite value compares false
on both tests and passes through, as in C. -/
def mjClampCode (x : MjNum) (lo hi : ℚ) : MjNum :=
  if mjLtB x (some lo) = true then some lo
  else if mjGtB x (some hi) = true then some hi
  else x

/-- One iteration of the activation clamp loop (activation slot `i`). -/
def clampActStep (m : MjModel) (a : MjVec) (i : Nat) : MjVec :=
  let iu := i + m.nu - m.na
  if m.actuator_actlimited iu = true then
    Function.update a i
      (mjClampCode (a i) (m.actuator_actrange (2 * iu)) (m.actuator_actrange (2 * iu + 1)))
  else a

/-- The activation clamp loop shared by `mj_Euler` and `mj_RungeKutta`. -/
def clampActivations (m : MjModel) (a : MjVec) : MjVec :=
  (List.range m.na).foldl (clampActStep m) a

/-- `mj_Euler`: semi-implicit Euler integration. -/
def mj_Euler (m : MjModel) (c : Collab) (d : MjData) : MjData :=
  let nv := m.nv
  let nM := m.nM
  let h := m.opt.timestep
  -- check for dof damping
  let hasDamping := (List.range nv).any (fun i => decide (0 < m.dof_damping i))
  let d :=
    if hasDamping = false then
      -- no damping: explicit velocity integration
      { d with qvel := mju_addToScl d.qvel d.qacc (some h) nv }
    else
      -- save M and factorization
      let saveM := mju_copy mjStackInit d.qM nM
      let saveLD := mju_copy mjStackInit d.qLD nM
      let saveLDiagInv := mju_copy mjStackInit d.qLDiagInv nv
      let saveLDiagSqrtInv := mju_copy mjStackInit d.qLDiagSqrtInv nv
      -- add hB to diagonal of M
      let qMd :=
        (List.range nv).foldl
          (fun v i =>
            Function.update v (m.dof_Madr i)
              (mjAdd (v (m.dof_Madr i)) (some (h * m.dof_damping i))))
          d.qM
      let d := { d with qM := qMd }
      -- factor
      let d :=
        let f := c.factorM m d
        { d with qLD := mju_copy d.qLD f.1 nM,
                 qLDiagInv := mju_copy d.qLDiagInv f.2.1 nv,
                 qLDiagSqrtInv := mju_copy d.qLDiagSqrtInv f.2.2 nv }
      -- solve and integrate velocity
      let qfrc := mju_add mjStackInit d.qfrc_smooth d.qfrc_constraint nv
      let qacc := mju_copy mjStackInit (c.solveM m d qfrc) nv
      let d := { d with qvel := mju_addToScl d.qvel qacc (some h) nv }
      -- restore M and factorization
      { d with qM := mju_copy d.qM saveM nM,
               qLD := mju_copy d.qLD saveLD nM,
               qLDiagInv := mju_copy d.qLDiagInv saveLDiagInv nv,
               qLDiagSqrtInv := mju_copy d.qLDiagSqrtInv saveLDiagSqrtInv nv }
  -- update act and clamp activations
  let d :=
    if m.na ≠ 0 then
      { d with act := clampActivations m (mju_addToScl d.act d.act_dot (some h) m.na) }
    else d
  -- update qpos using new qvel
  let d := { d with qpos := c.integratePos m d.qpos d.qvel h }
  -- advance time
  { d with time := mjAdd d.time (some h) }

/-- The RK4 tableau matrix `A` ((N-1)x(N-1), row-major). -/
def RK4_A : Nat → ℚ := fun k =>
  if k = 0 then 1 / 2 else if k = 4 then 1 / 2 else if k = 8 then 1 else 0

/-- The RK4 tableau weights `B`. -/
def RK4_B : Nat → ℚ := fun k =>
  if k = 0 then 1 / 6
  else if k = 1 then 1 / 3
  else if k = 2 then 1 / 3
  else if k = 3 then 1 / 6
  else 0

/-- `mj_forwardSkip` (defined below); forward declaration is avoided by
defining the Runge-Kutta stage loop after `mj_forwardSkip`. -/
def rkCRow : Nat → ℚ := fun k =>
  (List.range (k + 1)).foldl (fun s j => s + RK4_A (k * 3 + j)) 0

/-- `mj_forwardSkip`: forward dynamics with skip.  In this source version the
acceleration-dependent block is NOT gated on `skipstage`; only the position
and velocity blocks are. -/
def mj_forwardSkip (m : MjModel) (c : Collab) (skipstage : Nat) (skipsensor : Bool) (d : MjData) : MjData :=
  -- position-dependent
  let d :=
    if skipstage < mjSTAGE_POS then
      let d := mj_fwdPosition m c d
      let d := if skipsensor = false then { d with sensordata := c.sensorPos m d } else d
      let d := if m.opt.enableEnergy = true then { d with energy := (c.energyPos m d, d.energy.2) } else d
      d
    else d
  -- velocity-dependent
  let d :=
    if skipstage < mjSTAGE_VEL then
      let d := mj_fwdVelocity m c d
      let d := if skipsensor = false then { d with sensordata := c.sensorVel m d } else d
      let d := if m.opt.enableEnergy = true then { d with energy := (d.energy.1, c.energyVel m d) } else d
      d
    else d
  -- acceleration-dependent (unconditional)
  let d :=
    match c.control with
    | some f =>
        let p := f m d
        { d with ctrl := p.1, qfrc_applied := p.2 }
    | none => d
  let d := mj_fwdActuation m c d
  let d := mj_fwdAcceleration m c d
  let d := mj_fwdConstraint m c d
  if skipsensor = false then { d with sensordata := c.sensorAcc m d } else d

/-- `mj_forward`. -/
def mj_forward (m : MjModel) (c : Collab) (d : MjData) : MjData :=
  mj_forwardSkip m c mjSTAGE_NONE false d

/-- One Runge-Kutta stage (`i = 1, 2, 3`): build `X[i]` from the tableau,
load it into `mjData`, re-evaluate the dynamics, record `F[i]`.
The row stride of `A` is `N - 1 = 3`. -/
def rkStage (m : MjModel) (c : Collab) (T : Nat → MjNum)
    (st : MjData × List MjVec × List MjVec) (i : Nat) : MjData × List MjVec × List MjVec :=
  let d := st.1
  let Xs := st.2.1
  let Fs := st.2.2
  let nq := m.nq
  let nv := m.nv
  let na := m.na
  let h := m.opt.timestep
  -- dX = sum_j A[i-1][j] * (X[j].vel, F[j])
  let dX :=
    (List.range i).foldl
      (fun dX j =>
        let a : MjNum := some (RK4_A ((i - 1) * 3 + j))
        let dX := mju_addToScl dX (fun k => (Xs.getD j mjStackInit) (nq + k)) a nv
        mju_addToSclSeg dX nv (Fs.getD j mjStackInit) a (nv + na))
      (mju_zero mjStackInit (2 * nv + na))
  -- X[i] = X[0] '+' dX (positions via integratePos)
  let Xi := Xs.getD 0 mjStackInit
  let Xi := fun k => if k < nq then (c.integratePos m Xi dX h) k else Xi k
  let Xi := mju_addToSclSeg Xi nq (fun k => dX (nv + k)) (some h) (nv + na)
  -- set X[i], T[i-1] in mjData
  let d := { d with qpos := mju_copy d.qpos Xi nq,
                    qvel := mju_copy d.qvel (fun k => Xi (nq + k)) nv }
  let d := if na ≠ 0 then { d with act := mju_copy d.act (fun k => Xi (nq + nv + k)) na } else d
  let d := { d with time := T (i - 1) }
  -- evaluate F[i] (skip sensors and energy)
  let d := mj_forwardSkip m c mjSTAGE_NONE true d
  let Fi : MjVec := fun k =>
    if k < nv then d.qacc k
    else if k < nv + na then d.act_dot (k - nv)
    else mjStackInit k
  (d, Xs ++ [Xi], Fs ++ [Fi])

/-- `mj_RungeKutta(m, d, N)`: explicit Runge-Kutta integrator.  Only `N = 4`
is supported; any other order raises a fatal error in C (modeled as
returning the data unchanged, the error being non-recoverable). -/
def mj_RungeKutta (m : MjModel) (c : Collab) (d : MjData) (N : Nat) : MjData :=
  if N = 4 then
    let nq := m.nq
    let nv := m.nv
    let na := m.na
    let h := m.opt.timestep
    let time := d.time
    -- T[k] = time + C[k]*h with C the row sums of A
    let T : Nat → MjNum := fun k => mjAdd time (some (rkCRow k * h))
    -- init X[0], F[0] from mjData (mj_forward was already called)
    let X0 : MjVec := fun k =>
      if k < nq then d.qpos k
      else if k < nq + nv then d.qvel (k - nq)
      else if k < nq + nv + na then d.act (k - nq - nv)
      else mjStackInit k
    let F0 : MjVec := fun k =>
      if k < nv then d.qacc k
      else if k < nv + na then d.act_dot (k - nv)
      else mjStackInit k
    let st := [1, 2, 3].foldl (rkStage m c T) (d, [X0], [F0])
    let d1 := st.1
    let Xs := st.2.1
    let Fs := st.2.2
    -- dX for the final update uses B instead of A
    let dX :=
      (List.range 4).foldl
        (fun dX j =>
          let b : MjNum := some (RK4_B j)
          let dX := mju_addToScl dX (fun k => (Xs.getD j mjStackInit) (nq + k)) b nv
          mju_addToSclSeg dX nv (Fs.getD j mjStackInit) b (nv + na))
        (mju_zero mjStackInit (2 * nv + na))
    -- Xfinal: the C code copies X[0] back over (qpos, qvel, act), which are
    -- contiguous in mjData; modeled as the three copies
    let d2 := { d1 with time := mjAdd time (some h),
                        qpos := mju_copy d1.qpos X0 nq,
                        qvel := mju_copy d1.qvel (fun k => X0 (nq + k)) nv,
                        act := mju_copy d1.act (fun k => X0 (nq + nv + k)) na }
    let d2 := { d2 with qpos := c.integratePos m d2.qpos dX h }
    let d2 := { d2 with qvel := mju_addToScl d2.qvel (fun k => dX (nv + k)) (some h) nv }
    if na ≠ 0 then
      { d2 with act := clampActivations m (mju_addToScl d2.act (fun k => dX (2 * nv + k)) (some h) na) }
    else d2
  else d

/-- `mj_implicit`: fully implicit in velocity.  `mj_makeMSparse` builds only
the untracked sparse index structure. -/
def mj_implicit (m : MjModel) (c : Collab) (d : MjData) : MjData :=
  let nv := m.nv
  let h := m.opt.timestep
  -- mj_makeMSparse: untracked sparse structure D_rownnz/D_rowadr/D_colind
  -- compute analytical derivative qDeriv
  let d := { d with qDeriv := mju_copy d.qDeriv (c.mjd_smooth_vel m d) m.nD }
  -- set qLU = qM - dt*qDeriv
  let d := { d with qLU := mju_addToScl (mju_copy d.qLU (c.setMSparse m d) m.nD) d.qDeriv (some (-h)) m.nD }
  -- factorize qLU
  let d := { d with qLU := mju_copy d.qLU (c.factorLUSparse m d d.qLU) m.nD }
  -- qfrc = qfrc_smooth + qfrc_constraint; solve (qM - dt*qDeriv) qacc = qfrc
  let qfrc := mju_add mjStackInit d.qfrc_smooth d.qfrc_constraint nv
  let qacc := mju_copy mjStackInit (c.solveLUSparse m d d.qLU qfrc) nv
  -- update qvel
  let d := { d with qvel := mju_addToScl d.qvel qacc (some h) nv }
  -- update act (no clamp here, unlike Euler and RK4)
  let d := if m.na ≠ 0 then { d with act := mju_addToScl d.act d.act_dot (some h) m.na } else d
  -- update qpos using new qvel
  let d := { d with qpos := c.integratePos m d.qpos d.qvel h }
  -- advance time
  { d with time := mjAdd d.time (some h) }

/-- `mj_checkPos`: reset on the first non-finite position. -/
def mj_checkPos (m : MjModel) (c : Collab) (d : MjData) : MjData :=
  match (List.range m.nq).find? (fun i => mju_isBad (d.qpos i)) with
  | some i =>
      let d := mj_warning d .BADQPOS i
      let d := c.resetData m d
      mj_warning d .BADQPOS i
  | none => d

/-- `mj_checkVel`: reset on the first non-finite velocity. -/
def mj_checkVel (m : MjModel) (c : Collab) (d : MjData) : MjData :=
  match (List.range m.nv).find? (fun i => mju_isBad (d.qvel i)) with
  | some i =>
      let d := mj_warning d .BADQVEL i
      let d := c.resetData m d
      mj_warning d .BADQVEL i
  | none => d

/-- `mj_checkAcc`: reset on the first non-finite acceleration, then re-run
the forward dynamics. -/
def mj_checkAcc (m : MjModel) (c : Collab) (d : MjData) : MjData :=
  match (List.range m.nv).find? (fun i => mju_isBad (d.qacc i)) with
  | some i =>
      let d := mj_warning d .BADQACC i
      let d := c.resetData m d
      let d := mj_warning d .BADQACC i
      mj_forward m c d
  | none => d

/-- `mj_step`: one full simulation step.  The unknown-integrator default of
the C switch is unreachable: `MjtIntegrator` has exactly the three values. -/
def mj_step (m : MjModel) (c : Collab) (d : MjData) : MjData :=
  let d := mj_checkPos m c d
  let d := mj_checkVel m c d
  let d := mj_forward m c d
  let d := mj_checkAcc m c d
  -- compare forward and inverse solutions if enabled
  let d := if m.opt.enableFwdInv = true then { d with fwdinv := c.compareFwdInv m d } else d
  match m.opt.integrator with
  | .EULER => mj_Euler m c d
  | .RK4 => mj_RungeKutta m c d 4
  | .IMPLICIT => mj_implicit m c d

/-- `mj_step1`: the first phase of the split step.  Sensors and energy run
unconditionally, then the control callback. -/
def mj_step1 (m : MjModel) (c : Collab) (d : MjData) : MjData :=
  let d := mj_checkPos m c d
  let d := mj_checkVel m c d
  let d := mj_fwdPosition m c d
  let d := { d with sensordata := c.sensorPos m d }
  let d := { d with energy := (c.energyPos m d, d.energy.2) }
  let d := mj_fwdVelocity m c d
  let d := { d with sensordata := c.sensorVel m d }
  let d := { d with energy := (d.energy.1, c.energyVel m d) }
  match c.control with
  | some f =>
      let p := f m d
      { d with ctrl := p.1, qfrc_applied := p.2 }
  | none => d

/-- `mj_step2`: the second phase of the split step.  RK4 is downgraded to
Euler; the STEP timer decrement touches only untracked timer state. -/
def mj_step2 (m : MjModel) (c : Collab) (d : MjData) : MjData :=
  let d := mj_fwdActuation m c d
  let d := mj_fwdAcceleration m c d
  let d := mj_fwdConstraint m c d
  let d := { d with sensordata := c.sensorAcc m d }
  let d := mj_checkAcc m c d
  let d := if m.opt.enableFwdInv = true then { d with fwdinv := c.compareFwdInv m d } else d
  if m.opt.integrator = .IMPLICIT then mj_implicit m c d else mj_Euler m c d

/-- The position block of `mj_forwardSkip` (stage decomposition). -/
def fwdPosStage (m : MjModel) (c : Collab) (skipsensor : Bool) (d : MjData) : MjData :=
  let d := mj_fwdPosition m c d
  let d := if skipsensor = false then { d with sensordata := c.sensorPos m d } else d
  if m.opt.enableEnergy = true then { d with energy := (c.energyPos m d, d.energy.2) } else d

/-- The velocity block of `mj_forwardSkip` (stage decomposition). -/
def fwdVelStage (m : MjModel) (c : Collab) (skipsensor : Bool) (d : MjData) : MjData :=
  let d := mj_fwdVelocity m c d
  let d := if skipsensor = false then { d with sensordata := c.sensorVel m d } else d
  if m.opt.enableEnergy = true then { d with energy := (d.energy.1, c.energyVel m d) } else d

/-- The acceleration block of `mj_forwardSkip` (stage decomposition). -/
def fwdAccStage (m : MjModel) (c : Collab) (skipsensor : Bool) (d : MjData) : MjData :=
  let d :=
    match c.control with
    | some f =>
        let p := f m d
        { d with ctrl := p.1, qfrc_applied := p.2 }
    | none => d
  let d := mj_fwdActuation m c d
  let d := mj_fwdAcceleration m c d
  let d := mj_fwdConstraint m c d
  if skipsensor = false then { d with sensordata := c.sensorAcc m d } else d

/-- The all-zero vector, used to build concrete evaluation instances. -/
def zeroVec : MjVec := fun _ => some 0

/-- The all-zero matrix, used to build concrete evaluation instances. -/
def zeroMat : MjMat := fun _ _ => some 0

/-- A solver output writing zeros, for concrete evaluation instances. -/
def trivSolverOut : SolverOut :=
  { qacc := zeroVec, efc_force := zeroVec, qfrc_constraint := zeroVec, iters := 0 }

/-- A trivial collaborator instantiation for concrete evaluation. -/
def cW : Collab where
  tendonJ := fun _ _ => zeroMat
  transmission := fun _ _ => (zeroVec, zeroMat)
  crb := fun _ _ => zeroVec
  factorM := fun _ _ => (zeroVec, zeroVec, zeroVec)
  makeConstraint := fun _ d => d.nefc
  projectConstraint := fun _ _ => zeroMat
  passive := fun _ _ => zeroVec
  referenceConstraint := fun _ _ => zeroVec
  rne := fun _ _ => zeroVec
  xfrcContrib := fun _ _ => zeroVec
  solveM := fun _ _ _ => zeroVec
  mulJacVec := fun _ _ _ => zeroVec
  mulM := fun _ _ _ => zeroVec
  constraintUpdate := fun _ _ _ => some 0
  solPGS := fun _ _ _ => trivSolverOut
  solCG := fun _ _ _ => trivSolverOut
  solNewton := fun _ _ _ => trivSolverOut
  solNoSlip := fun _ _ _ => trivSolverOut
  integratePos := fun _ q _ _ => q
  sensorPos := fun _ _ => zeroVec
  sensorVel := fun _ _ => zeroVec
  sensorAcc := fun _ _ => zeroVec
  energyPos := fun _ _ => some 0
  energyVel := fun _ _ => some 0
  compareFwdInv := fun _ _ => (some 0, some 0)
  resetData := fun _ d => d
  mjd_smooth_vel := fun _ _ => zeroVec
  setMSparse := fun _ _ => zeroVec
  factorLUSparse := fun _ _ _ => zeroVec
  solveLUSparse := fun _ _ _ _ => zeroVec
  muscleGain := fun _ _ _ _ _ => some 0
  muscleBias := fun _ _ _ _ => some 0
  muscleDynamics := fun _ _ _ => some 0
  control := none
  act_gain := none
  act_bias := none
  act_dyn := none

/-- Concrete options for evaluation instances. -/
def optW : MjOption where
  timestep := 1 / 100
  integrator := .EULER
  solver := .CG
  iterations := 1
  noslip_iterations := 0
  disableActuation := false
  disableClampCtrl := false
  disableWarmstart := false
  enableEnergy := false
  enableFwdInv := false

/-- A concrete one-DOF model with one stateful-slot actuator whose
activation is limited to `[-1, 1]`. -/
def mW : MjModel where
  nq := 1
  nv := 1
  nu := 1
  na := 1
  nM := 1
  nD := 1
  ntendon := 0
  opt := optW
  dof_damping := fun _ => 0
  dof_Madr := fun _ => 0
  actuator_ctrllimited := fun _ => false
  actuator_ctrlrange := fun _ => 0
  actuator_forcelimited := fun _ => false
  actuator_forcerange := fun _ => 0
  actuator_actlimited := fun _ => true
  actuator_actrange := fun k => if k = 0 then -1 else 1
  actuator_gaintype := fun _ => .FIXED
  actuator_biastype := fun _ => .NONE
  actuator_dyntype := fun _ => .NONE
  actuator_gainprm := fun _ => 0
  actuator_biasprm := fun _ => 0
  actuator_dynprm := fun _ => 0
  actuator_lengthrange := fun _ => 0
  actuator_acc0 := fun _ => 0

/-- `mW` with the RK4 integrator selected. -/
def mWrk4 : MjModel := { mW with opt := { optW with integrator := .RK4 } }

/-- `mW` with the implicit integrator selected. -/
def mWimp : MjModel := { mW with opt := { optW with integrator := .IMPLICIT } }

/-- `mW` with the PGS solver selected. -/
def mWpgs : MjModel := { mW with opt := { optW with solver := .PGS } }

/-- `mW` with the energy enable flag set. -/
def mWnrg : MjModel := { mW with opt := { optW with enableEnergy := true } }

/-- A concrete all-zero data instance matching `mW`. -/
def dW : MjData where
  time := some 0
  qpos := zeroVec
  qvel := zeroVec
  act := zeroVec
  ctrl := zeroVec
  qfrc_applied := zeroVec
  qfrc_passive := zeroVec
  qfrc_bias := zeroVec
  qfrc_actuator := zeroVec
  qfrc_smooth := zeroVec
  qfrc_constraint := zeroVec
  qacc := zeroVec
  qacc_smooth := zeroVec
  qacc_warmstart := zeroVec
  actuator_force := zeroVec
  act_dot := zeroVec
  actuator_length := zeroVec
  actuator_velocity := zeroVec
  ten_velocity := zeroVec
  actuator_moment := zeroMat
  ten_J := zeroMat
  efc_AR := zeroMat
  qM := zeroVec
  qLD := zeroVec
  qLDiagInv := zeroVec
  qLDiagSqrtInv := zeroVec
  qDeriv := zeroVec
  qLU := zeroVec
  nefc := 0
  efc_aref := zeroVec
  efc_b := zeroVec
  efc_force := zeroVec
  sensordata := zeroVec
  energy := (some 0, some 0)
  fwdinv := (some 0, some 0)
  solver_iter := 0
  warning := fun _ => { number := 0, lastinfo := 0 }

/-- `dW` with one active constraint row. -/
def dW1 : MjData := { dW with nefc := 1 }

/-- `dW` with a nonzero `qfrc_actuator`, to observe the actuation stage. -/
def dW5 : MjData := { dW with qfrc_actuator := fun _ => some 5 }

/-- `dW` with a non-finite control. -/
def dWbad : MjData := { dW with ctrl := fun _ => none }

/-- `mW` with no actuators. -/
def mWnu0 : MjModel := { mW with nu := 0, na := 0 }

/-- Pointwise equality of two arrays on the extent `[0, n)`. -/
def vecEqOn (n : Nat) (f g : MjVec) : Prop := ∀ i, i < n → f i = g i

/-- A projection that every loop-body step preserves is preserved by the
whole `foldl`. -/
theorem foldl_proj_inv {α β γ : Type _} (proj : α → γ) (f : α → β → α)
    (h : ∀ a b, proj (f a b) = proj a) :
    ∀ (l : List β) (a : α), proj (List.foldl f a l) = proj a := by
  intro l
  induction l with
  | nil => intro a; rfl
  | cons x xs ih =>
      intro a
      rw [List.foldl_cons, ih, h]

/-- If no index below `n` satisfies `p`, the scan over `range n` finds none. -/
theorem find?_range_none (p : Nat → Bool) (n : Nat)
    (h : ∀ i, i < n → p i = false) :
    (List.range n).find? p = none := by
  rw [List.find?_eq_none]
  intro x hx
  rw [List.mem_range] at hx
  simp [h x hx]

/-- The scan over `range n` finds exactly the least index satisfying `p`. -/
theorem find?_range_some (p : Nat → Bool) :
    ∀ n i0, i0 < n → p i0 = true → (∀ k, k < i0 → p k = false) →
      (List.range n).find? p = some i0 := by
  intro n
  induction n with
  | zero => intro i0 h; omega
  | succ n ih =>
      intro i0 hlt hp hmin
      rw [List.range_succ, List.find?_append]
      by_cases hi : i0 < n
      · rw [ih i0 hi hp hmin]
        rfl
      · have heq : i0 = n := by omega
        subst heq
        rw [find?_range_none p i0 hmin]
        simp [List.find?, hp]

/-- A fold of per-index updates leaves indices at or above the range bound
unchanged. -/
theorem foldl_range_update_ge (step : MjVec → Nat → MjVec) (g : MjNum → Nat → MjNum)
    (hstep : ∀ a i, step a i = Function.update a i (g (a i) i)) :
    ∀ (n : Nat) (a : MjVec) (j : Nat), n ≤ j → ((List.range n).foldl step a) j = a j := by
  intro n
  induction n with
  | zero => intro a j _; rfl
  | succ n ih =>
      intro a j hj
      rw [List.range_succ, List.foldl_append]
      simp only [List.foldl_cons, List.foldl_nil]
      rw [hstep]
      rw [Function.update_noteq (by omega)]
      exact ih a j (by omega)

/-- A fold of per-index updates sends index `j < n` to `g` applied to the
original entry: each index is written exactly once. -/
theorem foldl_range_update_get (step : MjVec → Nat → MjVec) (g : MjNum → Nat → MjNum)
    (hstep : ∀ a i, step a i = Function.update a i (g (a i) i)) :
    ∀ (n : Nat) (a : MjVec) (j : Nat), j < n → ((List.range n).foldl step a) j = g (a j) j := by
  intro n
  induction n with
  | zero => intro a j h; omega
  | succ n ih =>
      intro a j hj
      rw [List.range_succ, List.foldl_append]
      simp only [List.foldl_cons, List.foldl_nil]
      rw [hstep]
      by_cases hjn : j = n
      · subst hjn
        rw [Function.update_same]
        rw [foldl_range_update_ge step g hstep j a j (by omega)]
      · rw [Function.update_noteq hjn]
        exact ih a j (by omega)

/-- The activation clamp step in update normal form. -/
theorem clampActStep_eq_update (m : MjModel) (a : MjVec) (i : Nat) :
    clampActStep m a i =
      Function.update a i
        (if m.actuator_actlimited (i + m.nu - m.na) = true then
            mjClampCode (a i) (m.actuator_actrange (2 * (i + m.nu - m.na)))
              (m.actuator_actrange (2 * (i + m.nu - m.na) + 1))
          else a i) := by
  unfold clampActStep
  split
  · rw [if_pos (by assumption)]
  · rw [if_neg (by assumption), Function.update_eq_self]

/-- Entry `j < na` of the clamped activation vector. -/
theorem clampActivations_get (m : MjModel) (a : MjVec) (j : Nat) (hj : j < m.na) :
    clampActivations m a j =
      (if m.actuator_actlimited (j + m.nu - m.na) = true then
          mjClampCode (a j) (m.actuator_actrange (2 * (j + m.nu - m.na)))
            (m.actuator_actrange (2 * (j + m.nu - m.na) + 1))
        else a j) := by
  unfold clampActivations
  exact foldl_range_update_get (clampActStep m)
    (fun x i =>
      if m.actuator_actlimited (i + m.nu - m.na) = true then
        mjClampCode x (m.actuator_actrange (2 * (i + m.nu - m.na)))
          (m.actuator_actrange (2 * (i + m.nu - m.na) + 1))
      else x)
    (clampActStep_eq_update m) m.na a j hj

/-- The activation clamp maps finite values into `[lo, hi]` when the range
is nonempty. -/
theorem mjClampCode_mem (x : MjNum) (lo hi q : ℚ) (hlh : lo ≤ hi)
    (h : mjClampCode x lo hi = some q) : lo ≤ q ∧ q ≤ hi := by
  unfold mjClampCode at h
  cases x with
  | none => simp [mjLtB, mjGtB] at h
  | some a =>
      simp only [mjLtB, mjGtB, decide_eq_true_eq] at h
      by_cases h1 : a < lo
      · rw [if_pos (by simp [h1])] at h
        cases h
        exact ⟨le_refl _, hlh⟩
      · rw [if_neg (by simp [h1])] at h
        by_cases h2 : hi < a
        · rw [if_pos (by simp [h2])] at h
          cases h
          exact ⟨hlh, le_refl _⟩
        · rw [if_neg (by simp [h2])] at h
          cases h
          exact ⟨le_of_not_lt h1, le_of_not_lt h2⟩

/-- The position stage does not touch the clock. -/
theorem time_fwdPosition (m : MjModel) (c : Collab) (d : MjData) :
    (mj_fwdPosition m c d).time = d.time := rfl

/-- The velocity stage does not touch the clock. -/
theorem time_fwdVelocity (m : MjModel) (c : Collab) (d : MjData) :
    (mj_fwdVelocity m c d).time = d.time := rfl

/-- The control scan does not touch the clock. -/
theorem time_checkCtrl (m : MjModel) (d : MjData) :
    (checkCtrl m d).time = d.time := by
  unfold checkCtrl
  split <;> rfl

/-- The actuation force loop body does not touch the clock. -/
theorem time_actuationForceStep (m : MjModel) (c : Collab) (d : MjData) (i : Nat) :
    (actuationForceStep m c d i).time = d.time := by
  unfold actuationForceStep
  split
  · split
    · rfl
    · split <;> rfl
  · rfl

/-- The `act_dot` loop body does not touch the clock. -/
theorem time_actDotStep (m : MjModel) (c : Collab) (d : MjData) (j : Nat) :
    (actDotStep m c d j).time = d.time := rfl

/-- The actuation stage does not touch the clock. -/
theorem time_fwdActuation (m : MjModel) (c : Collab) (d : MjData) :
    (mj_fwdActuation m c d).time = d.time := by
  have h1 : ∀ (l : List Nat) (a : MjData), (List.foldl (actuationForceStep m c) a l).time = a.time :=
    foldl_proj_inv MjData.time (actuationForceStep m c) (time_actuationForceStep m c)
  have h2 : ∀ (l : List Nat) (a : MjData), (List.foldl (actDotStep m c) a l).time = a.time :=
    foldl_proj_inv MjData.time (actDotStep m c) (time_actDotStep m c)
  simp only [mj_fwdActuation]
  split <;> (try split) <;> simp only [h1, h2, time_checkCtrl]

/-- The acceleration stage does not touch the clock. -/
theorem time_fwdAcceleration (m : MjModel) (c : Collab) (d : MjData) :
    (mj_fwdAcceleration m c d).time = d.time := rfl

/-- The warmstart routine does not touch the clock. -/
theorem time_warmstart (m : MjModel) (c : Collab) (d : MjData) :
    (warmstart m c d).time = d.time := by
  simp only [warmstart]
  split <;> (try split) <;> (try split) <;> rfl

/-- Writing a solver output does not touch the clock. -/
theorem time_applySol (m : MjModel) (d : MjData) (o : SolverOut) :
    (applySol m d o).time = d.time := rfl

/-- The constraint stage does not touch the clock. -/
theorem time_fwdConstraint (m : MjModel) (c : Collab) (d : MjData) :
    (mj_fwdConstraint m c d).time = d.time := by
  simp only [mj_fwdConstraint]
  split
  · rfl
  · split <;> split <;> simp only [time_applySol, time_warmstart]

/-- `mj_forwardSkip` decomposes into its three stage blocks: the position
block gated by `skipstage < POS`, the velocity block gated by
`skipstage < VEL`, and the unconditional acceleration block. -/
theorem forwardSkip_stages (m : MjModel) (c : Collab) (sk : Nat) (ss : Bool) (d : MjData) :
    mj_forwardSkip m c sk ss d =
      fwdAccStage m c ss
        (if sk < mjSTAGE_VEL then
          fwdVelStage m c ss (if sk < mjSTAGE_POS then fwdPosStage m c ss d else d)
         else (if sk < mjSTAGE_POS then fwdPosStage m c ss d else d)) := by
  simp only [mj_forwardSkip, fwdPosStage, fwdVelStage, fwdAccStage]

/-- The position block does not touch the clock. -/
theorem time_fwdPosStage (m : MjModel) (c : Collab) (ss : Bool) (d : MjData) :
    (fwdPosStage m c ss d).time = d.time := by
  simp only [fwdPosStage]
  split <;> (try split) <;> simp only [time_fwdPosition]

/-- The velocity block does not touch the clock. -/
theorem time_fwdVelStage (m : MjModel) (c : Collab) (ss : Bool) (d : MjData) :
    (fwdVelStage m c ss d).time = d.time := by
  simp only [fwdVelStage]
  split <;> (try split) <;> simp only [time_fwdVelocity]

/-- The acceleration block does not touch the clock. -/
theorem time_fwdAccStage (m : MjModel) (c : Collab) (ss : Bool) (d : MjData) :
    (fwdAccStage m c ss d).time = d.time := by
  simp only [fwdAccStage]
  split <;> split <;>
    simp only [time_fwdConstraint, time_fwdAcceleration, time_fwdActuation]

/-- `mj_forwardSkip` does not touch the clock. -/
theorem time_forwardSkip (m : MjModel) (c : Collab) (sk : Nat) (ss : Bool) (d : MjData) :
    (mj_forwardSkip m c sk ss d).time = d.time := by
  rw [forwardSkip_stages, time_fwdAccStage]
  split
  · rw [time_fwdVelStage]
    split
    · rw [time_fwdPosStage]
    · rfl
  · split
    · rw [time_fwdPosStage]
    · rfl

/-- `mj_forward` does not touch the clock. -/
theorem time_forward (m : MjModel) (c : Collab) (d : MjData) :
    (mj_forward m c d).time = d.time := time_forwardSkip m c mjSTAGE_NONE false d

/-- With all positions finite, `mj_checkPos` is the identity. -/
theorem checkPos_noop (m : MjModel) (c : Collab) (d : MjData)
    (h : ∀ i, i < m.nq → mju_isBad (d.qpos i) = false) :
    mj_checkPos m c d = d := by
  unfold mj_checkPos
  rw [find?_range_none _ _ h]

/-- With all velocities finite, `mj_checkVel` is the identity. -/
theorem checkVel_noop (m : MjModel) (c : Collab) (d : MjData)
    (h : ∀ i, i < m.nv → mju_isBad (d.qvel i) = false) :
    mj_checkVel m c d = d := by
  unfold mj_checkVel
  rw [find?_range_none _ _ h]

/-- With all accelerations finite, `mj_checkAcc` is the identity. -/
theorem checkAcc_noop (m : MjModel) (c : Collab) (d : MjData)
    (h : ∀ i, i < m.nv → mju_isBad (d.qacc i) = false) :
    mj_checkAcc m c d = d := by
  unfold mj_checkAcc
  rw [find?_range_none _ _ h]

/-- `mj_Euler` advances the clock by exactly one timestep. -/
theorem time_Euler (m : MjModel) (c : Collab) (d : MjData) :
    (mj_Euler m c d).time = mjAdd d.time (some m.opt.timestep) := by
  simp only [mj_Euler]
  split <;> split <;> rfl

/-- `mj_RungeKutta` at order 4 sets the clock to entry time plus one
timestep. -/
theorem time_RungeKutta (m : MjModel) (c : Collab) (d : MjData) :
    (mj_RungeKutta m c d 4).time = mjAdd d.time (some m.opt.timestep) := by
  simp only [mj_RungeKutta]
  norm_num
  split <;> rfl

/-- `mj_implicit` advances the clock by exactly one timestep. -/
theorem time_implicit (m : MjModel) (c : Collab) (d : MjData) :
    (mj_implicit m c d).time = mjAdd d.time (some m.opt.timestep) := by
  simp only [mj_implicit]
  split <;> rfl

/-- C1: for every model and data state in which no value-sanity reset fires
during the step (all entries of `qpos`, `qvel`, and the computed `qacc` are
finite), `mj_step` advances `d.time` by exactly `opt.timestep`, under each
of the three integrator choices EULER, RK4 and IMPLICIT (the conclusion
holds for every value of `m.opt.integrator`). -/
theorem mj_step_advances_time (m : MjModel) (c : Collab) (d : MjData)
    (h1 : ∀ i, i < m.nq → mju_isBad (d.qpos i) = false)
    (h2 : ∀ i, i < m.nv → mju_isBad (d.qvel i) = false)
    (h3 : ∀ i, i < m.nv → mju_isBad ((mj_forward m c d).qacc i) = false) :
    (mj_step m c d).time = mjAdd d.time (some m.opt.timestep) := by
  simp only [mj_step]
  rw [checkPos_noop m c d h1, checkVel_noop m c d h2, checkAcc_noop m c _ h3]
  cases m.opt.integrator <;>
    simp only [time_Euler, time_RungeKutta, time_implicit] <;>
    congr 1 <;> split <;> simp only [time_forward]

/-- C1 witness: concrete finite states, one per integrator choice. -/
theorem mj_step_advances_time_witness :
    (∀ i, i < mW.nq → mju_isBad (dW.qpos i) = false) ∧
    (∀ i, i < mW.nv → mju_isBad (dW.qvel i) = false) ∧
    (∀ i, i < mW.nv → mju_isBad ((mj_forward mW cW dW).qacc i) = false) ∧
    (mj_step mW cW dW).time = mjAdd dW.time (some mW.opt.timestep) ∧
    (mj_step mWrk4 cW dW).time = mjAdd dW.time (some mWrk4.opt.timestep) ∧
    (mj_step mWimp cW dW).time = mjAdd dW.time (some mWimp.opt.timestep) :=
  ⟨by decide, by decide, by decide,
   mj_step_advances_time mW cW dW (by decide) (by decide) (by decide),
   mj_step_advances_time mWrk4 cW dW (by decide) (by decide) (by decide),
   mj_step_advances_time mWimp cW dW (by decide) (by decide) (by decide)⟩

/-- C2: when `mj_fwdConstraint` is called with `nefc == 0` it copies
`qacc_smooth` into both `qacc` and `qacc_warmstart`, zeroes all `nv`
entries of `qfrc_constraint`, sets `solver_iter` to 0, and returns without
running the warmstart logic or any constraint solver (in particular
`efc_b`, `efc_force` and the warning counters are untouched, and the whole
data is otherwise unchanged). -/
theorem fwdConstraint_no_constraints (m : MjModel) (c : Collab) (d : MjData)
    (h : d.nefc = 0) :
    (∀ i, i < m.nv →
        (mj_fwdConstraint m c d).qacc i = d.qacc_smooth i ∧
        (mj_fwdConstraint m c d).qacc_warmstart i = d.qacc_smooth i ∧
        (mj_fwdConstraint m c d).qfrc_constraint i = some 0) ∧
    (mj_fwdConstraint m c d).solver_iter = 0 ∧
    (mj_fwdConstraint m c d).efc_b = d.efc_b ∧
    (mj_fwdConstraint m c d).efc_force = d.efc_force ∧
    (mj_fwdConstraint m c d).warning = d.warning ∧
    (mj_fwdConstraint m c d).time = d.time := by
  have hfast : mj_fwdConstraint m c d =
      { d with qacc := mju_copy d.qacc d.qacc_smooth m.nv,
               qacc_warmstart := mju_copy d.qacc_warmstart d.qacc_smooth m.nv,
               qfrc_constraint := mju_zero d.qfrc_constraint m.nv,
               solver_iter := 0 } := by
    simp only [mj_fwdConstraint]
    rw [if_pos h]
  rw [hfast]
  refine ⟨fun i hi => ⟨?_, ?_, ?_⟩, rfl, rfl, rfl, rfl, rfl⟩ <;>
    simp [mju_copy, mju_zero, hi]

/-- C2 witness: the fast path evaluated on a concrete constraint-free data. -/
theorem fwdConstraint_no_constraints_witness :
    dW.nefc = 0 ∧
    ((∀ i, i < mW.nv →
        (mj_fwdConstraint mW cW dW).qacc i = dW.qacc_smooth i ∧
        (mj_fwdConstraint mW cW dW).qacc_warmstart i = dW.qacc_smooth i ∧
        (mj_fwdConstraint mW cW dW).qfrc_constraint i = some 0) ∧
      (mj_fwdConstraint mW cW dW).solver_iter = 0 ∧
      (mj_fwdConstraint mW cW dW).efc_b = dW.efc_b ∧
      (mj_fwdConstraint mW cW dW).efc_force = dW.efc_force ∧
      (mj_fwdConstraint mW cW dW).warning = dW.warning ∧
      (mj_fwdConstraint mW cW dW).time = dW.time) :=
  ⟨rfl, fwdConstraint_no_constraints mW cW dW rfl⟩

/-- C3: after `mj_fwdAcceleration`, `qfrc_smooth` is
`qfrc_passive - qfrc_bias + qfrc_applied + qfrc_actuator` plus the
accumulated external wrench contribution, and `qacc_smooth` is the result
of the mass-matrix solve (`mj_solveM`, using the precomputed factorization
held in the data) applied to `qfrc_smooth`. -/
theorem fwdAcceleration_spec (m : MjModel) (c : Collab) (d : MjData) :
    ∀ i, i < m.nv →
      (mj_fwdAcceleration m c d).qfrc_smooth i =
        mjAdd (mjAdd (mjAdd (mjSub (d.qfrc_passive i) (d.qfrc_bias i)) (d.qfrc_applied i))
          (d.qfrc_actuator i)) (c.xfrcContrib m d i) ∧
      (mj_fwdAcceleration m c d).qacc_smooth i =
        c.solveM m { d with qfrc_smooth := (mj_fwdAcceleration m c d).qfrc_smooth }
          ((mj_fwdAcceleration m c d).qfrc_smooth) i := by
  intro i hi
  constructor
  · simp only [mj_fwdAcceleration]
    simp [mju_addTo, mju_sub, hi]
  · simp only [mj_fwdAcceleration]
    simp [mju_copy, hi]

/-- C3 witness: evaluated at a concrete index of a concrete state. -/
theorem fwdAcceleration_spec_witness :
    (0 : Nat) < mW.nv ∧
    ((mj_fwdAcceleration mW cW dW).qfrc_smooth 0 =
        mjAdd (mjAdd (mjAdd (mjSub (dW.qfrc_passive 0) (dW.qfrc_bias 0)) (dW.qfrc_applied 0))
          (dW.qfrc_actuator 0)) (cW.xfrcContrib mW dW 0) ∧
      (mj_fwdAcceleration mW cW dW).qacc_smooth 0 =
        cW.solveM mW { dW with qfrc_smooth := (mj_fwdAcceleration mW cW dW).qfrc_smooth }
          ((mj_fwdAcceleration mW cW dW).qfrc_smooth) 0) :=
  ⟨by decide, fwdAcceleration_spec mW cW dW 0 (by decide)⟩

/-- C4 counterexample: with `skipstage = mjSTAGE_ACC`, `mj_forwardSkip`
still runs the actuation stage — it overwrites `qfrc_actuator`, so the
claim that the actuation, acceleration and constraint stages do not run at
that label is false. -/
theorem forwardSkip_acc_label_cex :
    (mj_forwardSkip mWnu0 cW mjSTAGE_ACC true dW5).qfrc_actuator 0 ≠ dW5.qfrc_actuator 0 := by
  decide

/-- C4 amended: `mj_forwardSkip` runs the position block iff
`skipstage < mjSTAGE_POS` and the velocity block iff
`skipstage < mjSTAGE_VEL`, while the acceleration-dependent block
(control callback, actuation, acceleration, constraint stages) runs
unconditionally, for every `skipstage` value. -/
theorem forwardSkip_stage_gating (m : MjModel) (c : Collab) (sk : Nat) (ss : Bool) (d : MjData) :
    mj_forwardSkip m c sk ss d =
      fwdAccStage m c ss
        (if sk < mjSTAGE_VEL then
          fwdVelStage m c ss (if sk < mjSTAGE_POS then fwdPosStage m c ss d else d)
         else (if sk < mjSTAGE_POS then fwdPosStage m c ss d else d)) :=
  forwardSkip_stages m c sk ss d

/-- C7: `mj_Euler` leaves `qM`, `qLD`, `qLDiagInv` and `qLDiagSqrtInv`
equal to their values at entry on both the no-damping path and the damping
path (which temporarily modifies and refactors the mass matrix before
restoring the saved copies). -/
theorem Euler_preserves_inertia (m : MjModel) (c : Collab) (d : MjData) :
    vecEqOn m.nM (mj_Euler m c d).qM d.qM ∧
    vecEqOn m.nM (mj_Euler m c d).qLD d.qLD ∧
    vecEqOn m.nv (mj_Euler m c d).qLDiagInv d.qLDiagInv ∧
    vecEqOn m.nv (mj_Euler m c d).qLDiagSqrtInv d.qLDiagSqrtInv := by
  simp only [mj_Euler]
  split <;> split <;>
    refine ⟨fun i hi => ?_, fun i hi => ?_, fun i hi => ?_, fun i hi => ?_⟩ <;>
    simp [mju_copy, hi]

/-- C5: for CG/NEWTON with warmstarting enabled and `nefc > 0`, the
warmstart routine leaves `qacc` equal to `qacc_smooth` exactly when the
warmstart cost (the constraint cost of `J*qacc_warmstart - efc_aref` plus
the Gauss term `(1/2)*(M*qacc_warmstart - qfrc_smooth)^T*(qacc_warmstart -
qacc_smooth)`) is strictly greater than the constraint cost of `efc_b`,
and equal to `qacc_warmstart` otherwise. -/
theorem warmstart_cg_newton (m : MjModel) (c : Collab) (d : MjData)
    (hsol : m.opt.solver = .CG ∨ m.opt.solver = .NEWTON)
    (hws : m.opt.disableWarmstart = false)
    (hnefc : 0 < d.nefc) :
    ∀ i, i < m.nv →
      (warmstart m c d).qacc i =
        (let d1 := { d with qacc := mju_copy d.qacc d.qacc_warmstart m.nv }
         let jar := mju_subFrom (mju_copy mjStackInit (c.mulJacVec m d1 d.qacc_warmstart) d.nefc)
           d.efc_aref d.nefc
         let cost0 := c.constraintUpdate m d1 jar
         let Ma := c.mulM m d1 d.qacc_warmstart
         let cost_warmstart :=
           (List.range m.nv).foldl
             (fun s k =>
               mjAdd s (mjMul (mjMul (some (1 / 2)) (mjSub (Ma k) (d.qfrc_smooth k)))
                 (mjSub (d.qacc_warmstart k) (d.qacc_smooth k))))
             cost0
         let cost_smooth := c.constraintUpdate m d1 d.efc_b
         if mjGtB cost_warmstart cost_smooth = true then d.qacc_smooth i else d.qacc_warmstart i) := by
  intro i hi
  simp only [warmstart, hws]
  rcases hsol with h | h <;> rw [h] <;>
    simp only [reduceCtorEq, reduceIte, if_pos] <;>
    split <;> simp [mju_copy, hi]

/-- C5 witness: a concrete CG configuration with one constraint row. -/
theorem warmstart_cg_newton_witness :
    (mW.opt.solver = .CG ∨ mW.opt.solver = .NEWTON) ∧
    mW.opt.disableWarmstart = false ∧ (0 : Nat) < dW1.nefc ∧
    (∀ i, i < mW.nv →
      (warmstart mW cW dW1).qacc i =
        (let d1 := { dW1 with qacc := mju_copy dW1.qacc dW1.qacc_warmstart mW.nv }
         let jar := mju_subFrom (mju_copy mjStackInit (cW.mulJacVec mW d1 dW1.qacc_warmstart) dW1.nefc)
           dW1.efc_aref dW1.nefc
         let cost0 := cW.constraintUpdate mW d1 jar
         let Ma := cW.mulM mW d1 dW1.qacc_warmstart
         let cost_warmstart :=
           (List.range mW.nv).foldl
             (fun s k =>
               mjAdd s (mjMul (mjMul (some (1 / 2)) (mjSub (Ma k) (dW1.qfrc_smooth k)))
                 (mjSub (dW1.qacc_warmstart k) (dW1.qacc_smooth k))))
             cost0
         let cost_smooth := cW.constraintUpdate mW d1 dW1.efc_b
         if mjGtB cost_warmstart cost_smooth = true then dW1.qacc_smooth i else dW1.qacc_warmstart i)) :=
  ⟨Or.inl rfl, rfl, by decide, warmstart_cg_newton mW cW dW1 (Or.inl rfl) rfl (by decide)⟩

/-- C9: for PGS with warmstarting enabled and `nefc > 0`, the warmstart
routine always leaves `qacc` equal to `qacc_warmstart` (it never falls
back to `qacc_smooth`); when the force cost
`efc_force^T efc_b + (1/2) efc_force^T (AR efc_force)` is strictly
positive it zeroes exactly `efc_force` and `qfrc_constraint`, and
otherwise it changes nothing but the initial `qacc` copy. -/
theorem warmstart_pgs (m : MjModel) (c : Collab) (d : MjData)
    (hsol : m.opt.solver = .PGS)
    (hws : m.opt.disableWarmstart = false)
    (hnefc : 0 < d.nefc) :
    (∀ i, i < m.nv → (warmstart m c d).qacc i = d.qacc_warmstart i) ∧
    (let PGSw := mjAdd (mju_dot d.efc_force d.efc_b d.nefc)
        (mjMul (some (1 / 2))
          (mju_dot d.efc_force (mju_mulMatVec mjStackInit d.efc_AR d.efc_force d.nefc d.nefc) d.nefc))
     (mjGtB PGSw (some 0) = true →
        warmstart m c d =
          { d with qacc := mju_copy d.qacc d.qacc_warmstart m.nv,
                   efc_force := mju_zero d.efc_force d.nefc,
                   qfrc_constraint := mju_zero d.qfrc_constraint m.nv }) ∧
     (¬ mjGtB PGSw (some 0) = true →
        warmstart m c d = { d with qacc := mju_copy d.qacc d.qacc_warmstart m.nv })) := by
  refine ⟨?_, ?_, ?_⟩
  · intro i hi
    simp only [warmstart, hws, hsol]
    simp only [reduceIte]
    split <;> simp [mju_copy, hi]
  · intro hphi
    simp only [warmstart, hws, hsol]
    simp only [reduceIte]
    rw [if_pos hphi]
  · intro hphi
    simp only [warmstart, hws, hsol]
    simp only [reduceIte]
    rw [if_neg hphi]

/-- C9 witness: a concrete PGS configuration with one constraint row. -/
theorem warmstart_pgs_witness :
    mWpgs.opt.solver = .PGS ∧ mWpgs.opt.disableWarmstart = false ∧ (0 : Nat) < dW1.nefc ∧
    ((∀ i, i < mWpgs.nv → (warmstart mWpgs cW dW1).qacc i = dW1.qacc_warmstart i) ∧
     (let PGSw := mjAdd (mju_dot dW1.efc_force dW1.efc_b dW1.nefc)
         (mjMul (some (1 / 2))
           (mju_dot dW1.efc_force
             (mju_mulMatVec mjStackInit dW1.efc_AR dW1.efc_force dW1.nefc dW1.nefc) dW1.nefc))
      (mjGtB PGSw (some 0) = true →
         warmstart mWpgs cW dW1 =
           { dW1 with qacc := mju_copy dW1.qacc dW1.qacc_warmstart mWpgs.nv,
                      efc_force := mju_zero dW1.efc_force dW1.nefc,
                      qfrc_constraint := mju_zero dW1.qfrc_constraint mWpgs.nv }) ∧
      (¬ mjGtB PGSw (some 0) = true →
         warmstart mWpgs cW dW1 = { dW1 with qacc := mju_copy dW1.qacc dW1.qacc_warmstart mWpgs.nv }))) :=
  ⟨rfl, rfl, by decide, warmstart_pgs mWpgs cW dW1 rfl rfl (by decide)⟩

/-- The actuation force loop body does not touch the warning counters. -/
theorem warning_actuationForceStep (m : MjModel) (c : Collab) (d : MjData) (i : Nat) :
    (actuationForceStep m c d i).warning = d.warning := by
  unfold actuationForceStep
  split
  · split
    · rfl
    · split <;> rfl
  · rfl

/-- The `act_dot` loop body does not touch the warning counters. -/
theorem warning_actDotStep (m : MjModel) (c : Collab) (d : MjData) (j : Nat) :
    (actDotStep m c d j).warning = d.warning := rfl

/-- The control scan's warning effect depends only on `ctrl` and the
entry warning state. -/
theorem warning_checkCtrl_eq (m : MjModel) (d dz : MjData)
    (hc : dz.ctrl = d.ctrl) (hw : dz.warning = d.warning) :
    (checkCtrl m dz).warning = (checkCtrl m d).warning := by
  unfold checkCtrl mj_warning
  rw [hc]
  cases hfind : (List.range m.nu).find? (fun i => mju_isBad (d.ctrl i)) <;> simp [hw]

/-- `mj_fwdActuation` changes the warning state exactly as its control
scan does. -/
theorem warning_fwdActuation (m : MjModel) (c : Collab) (d : MjData) :
    (mj_fwdActuation m c d).warning = (checkCtrl m d).warning := by
  have h1 : ∀ (l : List Nat) (a : MjData), (List.foldl (actuationForceStep m c) a l).warning = a.warning :=
    foldl_proj_inv MjData.warning (actuationForceStep m c) (warning_actuationForceStep m c)
  have h2 : ∀ (l : List Nat) (a : MjData), (List.foldl (actDotStep m c) a l).warning = a.warning :=
    foldl_proj_inv MjData.warning (actDotStep m c) (warning_actDotStep m c)
  simp only [mj_fwdActuation]
  split <;> (try split) <;> (try simp only [h1, h2]) <;>
    exact warning_checkCtrl_eq m d _ rfl rfl

/-- C6: in `mj_fwdActuation`, if some entry of `ctrl` is non-finite then a
BADCTRL warning is raised with `lastinfo` the smallest non-finite index
and the counter incremented, and the scan zeroes all `nu` entries of
`ctrl`; if every entry is finite, the scan raises no warning and leaves
the data (in particular `ctrl`) unchanged. -/
theorem fwdActuation_bad_ctrl (m : MjModel) (c : Collab) (d : MjData) :
    (∀ i0, i0 < m.nu → mju_isBad (d.ctrl i0) = true →
      (∀ k, k < i0 → mju_isBad (d.ctrl k) = false) →
        ((mj_fwdActuation m c d).warning .BADCTRL).number = (d.warning .BADCTRL).number + 1 ∧
        ((mj_fwdActuation m c d).warning .BADCTRL).lastinfo = i0 ∧
        (∀ j, j < m.nu → (checkCtrl m d).ctrl j = some 0)) ∧
    ((∀ i, i < m.nu → mju_isBad (d.ctrl i) = false) →
        checkCtrl m d = d ∧
        (mj_fwdActuation m c d).warning .BADCTRL = d.warning .BADCTRL) := by
  constructor
  · intro i0 hi0 hbad hmin
    have hfind := find?_range_some (fun i => mju_isBad (d.ctrl i)) m.nu i0 hi0 hbad hmin
    have hck : (checkCtrl m d).warning = Function.update d.warning MjtWarning.BADCTRL
        ⟨(d.warning MjtWarning.BADCTRL).number + 1, i0⟩ := by
      unfold checkCtrl
      rw [hfind]
      simp [mj_warning]
    refine ⟨?_, ?_, ?_⟩
    · rw [warning_fwdActuation, hck, Function.update_same]
    · rw [warning_fwdActuation, hck, Function.update_same]
    · intro j hj
      unfold checkCtrl
      rw [hfind]
      simp [mju_zero, hj]
  · intro hfin
    have hfind := find?_range_none (fun i => mju_isBad (d.ctrl i)) m.nu hfin
    have hid : checkCtrl m d = d := by
      unfold checkCtrl
      rw [hfind]
    exact ⟨hid, by rw [warning_fwdActuation, hid]⟩

/-- C6 witness: one actuator with a non-finite control at index 0. -/
theorem fwdActuation_bad_ctrl_witness :
    (0 : Nat) < mW.nu ∧ mju_isBad (dWbad.ctrl 0) = true ∧
    ((mj_fwdActuation mW cW dWbad).warning .BADCTRL).number = (dWbad.warning .BADCTRL).number + 1 ∧
    ((mj_fwdActuation mW cW dWbad).warning .BADCTRL).lastinfo = 0 ∧
    (∀ j, j < mW.nu → (checkCtrl mW dWbad).ctrl j = some 0) := by
  have h := (fwdActuation_bad_ctrl mW cW dWbad).1 0 (by decide) (by decide)
    (fun k hk => absurd hk (Nat.not_lt_zero k))
  exact ⟨by decide, by decide, h.1, h.2.1, h.2.2⟩

/-- C8: for every activation slot `j < na` with `iu = j + nu - na`, if the
activation is limited (and the range is a nonempty interval, as the model
compiler guarantees), then any finite value of `act[j]` after `mj_Euler`
or after `mj_RungeKutta(4)` lies in `[actrange[2*iu], actrange[2*iu+1]]`
(a non-finite value passes through the clamp as in C). -/
theorem act_clamped_euler_rk4 (m : MjModel) (c : Collab) (d : MjData) (j : Nat)
    (hj : j < m.na)
    (hlim : m.actuator_actlimited (j + m.nu - m.na) = true)
    (hrange : m.actuator_actrange (2 * (j + m.nu - m.na)) ≤
      m.actuator_actrange (2 * (j + m.nu - m.na) + 1)) :
    (∀ q : ℚ, (mj_Euler m c d).act j = some q →
        m.actuator_actrange (2 * (j + m.nu - m.na)) ≤ q ∧
        q ≤ m.actuator_actrange (2 * (j + m.nu - m.na) + 1)) ∧
    (∀ q : ℚ, (mj_RungeKutta m c d 4).act j = some q →
        m.actuator_actrange (2 * (j + m.nu - m.na)) ≤ q ∧
        q ≤ m.actuator_actrange (2 * (j + m.nu - m.na) + 1)) := by
  have hna : m.na ≠ 0 := by omega
  constructor
  · intro q hq
    simp only [mj_Euler] at hq
    rw [if_pos hna] at hq
    simp only at hq
    rw [clampActivations_get m _ j hj, if_pos hlim] at hq
    exact mjClampCode_mem _ _ _ _ hrange hq
  · intro q hq
    simp only [mj_RungeKutta, reduceIte] at hq
    rw [if_pos hna] at hq
    simp only at hq
    rw [clampActivations_get m _ j hj, if_pos hlim] at hq
    exact mjClampCode_mem _ _ _ _ hrange hq

/-- C8 witness: the concrete limited actuator of `mW` at slot 0. -/
theorem act_clamped_euler_rk4_witness :
    (0 : Nat) < mW.na ∧
    mW.actuator_actlimited (0 + mW.nu - mW.na) = true ∧
    mW.actuator_actrange (2 * (0 + mW.nu - mW.na)) ≤
      mW.actuator_actrange (2 * (0 + mW.nu - mW.na) + 1) ∧
    ((∀ q : ℚ, (mj_Euler mW cW dW).act 0 = some q →
        mW.actuator_actrange (2 * (0 + mW.nu - mW.na)) ≤ q ∧
        q ≤ mW.actuator_actrange (2 * (0 + mW.nu - mW.na) + 1)) ∧
     (∀ q : ℚ, (mj_RungeKutta mW cW dW 4).act 0 = some q →
        mW.actuator_actrange (2 * (0 + mW.nu - mW.na)) ≤ q ∧
        q ≤ mW.actuator_actrange (2 * (0 + mW.nu - mW.na) + 1))) :=
  ⟨by decide, by decide, by decide,
   act_clamped_euler_rk4 mW cW dW 0 (by decide) (by decide) (by decide)⟩

/-- The position stage does not touch the energy pair. -/
theorem energy_fwdPosition (m : MjModel) (c : Collab) (d : MjData) :
    (mj_fwdPosition m c d).energy = d.energy := rfl

/-- The velocity stage does not touch the energy pair. -/
theorem energy_fwdVelocity (m : MjModel) (c : Collab) (d : MjData) :
    (mj_fwdVelocity m c d).energy = d.energy := rfl

/-- The control scan does not touch the energy pair. -/
theorem energy_checkCtrl (m : MjModel) (d : MjData) :
    (checkCtrl m d).energy = d.energy := by
  unfold checkCtrl
  split <;> rfl

/-- The actuation force loop body does not touch the energy pair. -/
theorem energy_actuationForceStep (m : MjModel) (c : Collab) (d : MjData) (i : Nat) :
    (actuationForceStep m c d i).energy = d.energy := by
  unfold actuationForceStep
  split
  · split
    · rfl
    · split <;> rfl
  · rfl

/-- The `act_dot` loop body does not touch the energy pair. -/
theorem energy_actDotStep (m : MjModel) (c : Collab) (d : MjData) (j : Nat) :
    (actDotStep m c d j).energy = d.energy := rfl

/-- The actuation stage does not touch the energy pair. -/
theorem energy_fwdActuation (m : MjModel) (c : Collab) (d : MjData) :
    (mj_fwdActuation m c d).energy = d.energy := by
  have h1 : ∀ (l : List Nat) (a : MjData), (List.foldl (actuationForceStep m c) a l).energy = a.energy :=
    foldl_proj_inv MjData.energy (actuationForceStep m c) (energy_actuationForceStep m c)
  have h2 : ∀ (l : List Nat) (a : MjData), (List.foldl (actDotStep m c) a l).energy = a.energy :=
    foldl_proj_inv MjData.energy (actDotStep m c) (energy_actDotStep m c)
  simp only [mj_fwdActuation]
  split <;> (try split) <;> simp only [h1, h2, energy_checkCtrl]

/-- The acceleration stage does not touch the energy pair. -/
theorem energy_fwdAcceleration (m : MjModel) (c : Collab) (d : MjData) :
    (mj_fwdAcceleration m c d).energy = d.energy := rfl

/-- The warmstart routine does not touch the energy pair. -/
theorem energy_warmstart (m : MjModel) (c : Collab) (d : MjData) :
    (warmstart m c d).energy = d.energy := by
  simp only [warmstart]
  split <;> (try split) <;> (try split) <;> rfl

/-- Writing a solver output does not touch the energy pair. -/
theorem energy_applySol (m : MjModel) (d : MjData) (o : SolverOut) :
    (applySol m d o).energy = d.energy := rfl

/-- The constraint stage does not touch the energy pair. -/
theorem energy_fwdConstraint (m : MjModel) (c : Collab) (d : MjData) :
    (mj_fwdConstraint m c d).energy = d.energy := by
  simp only [mj_fwdConstraint]
  split
  · rfl
  · split <;> split <;> simp only [energy_applySol, energy_warmstart]

/-- The acceleration block of `mj_forwardSkip` does not touch the energy
pair. -/
theorem energy_fwdAccStage (m : MjModel) (c : Collab) (ss : Bool) (d : MjData) :
    (fwdAccStage m c ss d).energy = d.energy := by
  simp only [fwdAccStage]
  split <;> split <;>
    simp only [energy_fwdConstraint, energy_fwdAcceleration, energy_fwdActuation]

/-- With the energy enable flag clear, the position block does not touch
the energy pair. -/
theorem energy_fwdPosStage_disabled (m : MjModel) (c : Collab) (ss : Bool) (d : MjData)
    (h : m.opt.enableEnergy = false) :
    (fwdPosStage m c ss d).energy = d.energy := by
  simp only [fwdPosStage]
  rw [if_neg (by simp [h])]
  split <;> rfl

/-- With the energy enable flag clear, the velocity block does not touch
the energy pair. -/
theorem energy_fwdVelStage_disabled (m : MjModel) (c : Collab) (ss : Bool) (d : MjData)
    (h : m.opt.enableEnergy = false) :
    (fwdVelStage m c ss d).energy = d.energy := by
  simp only [fwdVelStage]
  rw [if_neg (by simp [h])]
  split <;> rfl

/-- C10: `mj_step1` invokes the energy hooks unconditionally — its energy
pair equals the collaborator values for every value of the ENERGY enable
flag — whereas `mj_forwardSkip` leaves the energy pair untouched whenever
ENERGY is disabled and writes both collaborator values (shown at
`skipstage = NONE`) when it is enabled. -/
theorem step1_energy_unconditional (m : MjModel) (c : Collab) (d : MjData) (sk : Nat) (ss : Bool) :
    ((mj_step1 m c d).energy =
      (let d2 := mj_checkVel m c (mj_checkPos m c d)
       let d3 := mj_fwdPosition m c d2
       let d4 := { d3 with sensordata := c.sensorPos m d3 }
       let d5 := { d4 with energy := (c.energyPos m d4, d4.energy.2) }
       let d6 := mj_fwdVelocity m c d5
       let d7 := { d6 with sensordata := c.sensorVel m d6 }
       (c.energyPos m d4, c.energyVel m d7))) ∧
    (m.opt.enableEnergy = false → (mj_forwardSkip m c sk ss d).energy = d.energy) ∧
    (m.opt.enableEnergy = true →
      (mj_forwardSkip m c mjSTAGE_NONE ss d).energy =
        (let e3 := mj_fwdPosition m c d
         let e4 := if ss = false then { e3 with sensordata := c.sensorPos m e3 } else e3
         let e5 := { e4 with energy := (c.energyPos m e4, e4.energy.2) }
         let e6 := mj_fwdVelocity m c e5
         let e7 := if ss = false then { e6 with sensordata := c.sensorVel m e6 } else e6
         (c.energyPos m e4, c.energyVel m e7))) := by
  refine ⟨?_, ?_, ?_⟩
  · simp only [mj_step1]
    cases c.control <;> simp [energy_fwdVelocity]
  · intro h
    rw [forwardSkip_stages, energy_fwdAccStage]
    split
    · rw [energy_fwdVelStage_disabled m c ss _ h]
      split
      · rw [energy_fwdPosStage_disabled m c ss d h]
      · rfl
    · split
      · rw [energy_fwdPosStage_disabled m c ss d h]
      · rfl
  · intro h
    rw [forwardSkip_stages, energy_fwdAccStage]
    rw [if_pos (by decide), if_pos (by decide)]
    simp only [fwdVelStage, fwdPosStage]
    rw [if_pos h, if_pos h]
    simp [apply_ite MjData.energy, energy_fwdVelocity]

/-- C10 witness: the gating evaluated with the flag clear and set. -/
theorem step1_energy_unconditional_witness :
    mW.opt.enableEnergy = false ∧
    (mj_forwardSkip mW cW mjSTAGE_ACC true dW).energy = dW.energy ∧
    mWnrg.opt.enableEnergy = true ∧
    ((mj_forwardSkip mWnrg cW mjSTAGE_NONE true dW).energy =
       (let e3 := mj_fwdPosition mWnrg cW dW
        let e4 := if true = false then { e3 with sensordata := cW.sensorPos mWnrg e3 } else e3
        let e5 := { e4 with energy := (cW.energyPos mWnrg e4, e4.energy.2) }
        let e6 := mj_fwdVelocity mWnrg cW e5
        let e7 := if true = false then { e6 with sensordata := cW.sensorVel mWnrg e6 } else e6
        (cW.energyPos mWnrg e4, cW.energyVel mWnrg e7))) :=
  ⟨rfl, (step1_energy_unconditional mW cW dW mjSTAGE_ACC true).2.1 rfl, rfl,
   (step1_energy_unconditional mWnrg cW dW mjSTAGE_ACC true).2.2 rfl⟩

end MjForward
